import Mathlib

/-!
Shallow embedding of `spidermon/contrib/scrapy/pipelines.py`
(`ItemValidationPipeline`), the validation dispatch engine: registry
construction (`from_crawler` / `set_validators`), validator lookup
(`find_validators`), the per-record dispatch loop (`process_item`), and
error annotation (`_add_errors_to_item`).

External collaborators (validators, the schema/model loaders, the stats
sink `ValidationStatsManager`) are modelled at their interface boundary:
a validator is a function `data -> (ok, errors)`, a loader is a function
from a reference string to a validator, and the stats sink is modelled by
recording the sequence of increment events the engine sends to it.
-/

namespace Spidermon

/-- A validator error report: mapping from field name to the ordered list
of human-readable messages, represented as an ordered association list. -/
abbrev Errors := List (String × List String)

/-- A value stored in an item field: either an opaque payload (modelled as
a string) or the aggregated-errors mapping that `_add_errors_to_item`
stores under the configured errors field. -/
inductive ItemValue where
  | plain (payload : String)
  | errorsVal (e : Errors)
deriving DecidableEq

/-- A structured record flowing through the pipeline. `typeName` models
`item.__class__.__name__`, `classFields` models the declared field names
`item.__class__.fields`, and `values` models `item._values`. -/
structure Item where
  typeName : String
  classFields : List String
  values : List (String × ItemValue)
deriving DecidableEq

/-- An external validator instance: `validate(data) -> (ok, errors)`. -/
structure Validator where
  name : String
  validate : List (String × ItemValue) → Bool × Errors

/-- The validator registry: mapping from type-key (a class name) to the
ordered list of validator instances registered for it. -/
abbrev Registry := List (String × List Validator)

/-- The reserved universal registry key, `UniversalItem.__name__`. -/
def universalKey : String := "UniversalItem"

/-- Increment events sent to the stats sink (`ValidationStatsManager`),
named after the methods `process_item` calls on `self.stats`. -/
inductive StatsEvent where
  | addItem
  | addFields (n : Nat)
  | addFieldError (field : String) (message : String)
  | addItemWithErrors
  | addDroppedItem
deriving DecidableEq

/-- Default for `SPIDERMON_VALIDATION_ERRORS_FIELD`. -/
def DEFAULT_ERRORS_FIELD : String := "_validation"

/-- Default for `SPIDERMON_VALIDATION_ADD_ERRORS_TO_ITEMS`. -/
def DEFAULT_ADD_ERRORS_TO_ITEM : Bool := false

/-- The pipeline state after construction: the registry plus the
configuration switches read from the crawler settings. -/
structure Pipeline where
  validators : Registry
  drop_items_with_errors : Bool
  add_errors_to_items : Bool
  errors_field : String

/-- Python `self.validators.get(key, ...)`: first entry for `key`. -/
def registryGet (key : String) : Registry → Option (List Validator)
  | [] => none
  | (k, v) :: rest => if k = key then some v else registryGet key rest

/-- Python dict assignment `validators[key] = v`: replaces the entry for
`key` in place if present, otherwise appends a new entry. -/
def registrySet (key : String) (v : List Validator) : Registry → Registry
  | [] => [(key, v)]
  | (k, w) :: rest =>
    if k = key then (k, v) :: rest else (k, w) :: registrySet key v rest

/-- `validators[key] = validators.get(key, []) + objects`: the additive
registration step in `set_validators`. -/
def registryAdd (key : String) (objects : List Validator) (r : Registry) :
    Registry :=
  registrySet key ((registryGet key r).getD [] ++ objects) r

/-- A leaf declaration value inside a schema/model setting: either a
single (non-container) value or a list/tuple of values. -/
inductive DeclVal where
  | scalar (s : String)
  | ofList (xs : List String)
  | ofTuple (xs : List String)

/-- `paths = paths if type(paths) in (list, tuple) else [paths]`:
normalize a leaf declaration value to a list of reference strings. -/
def DeclVal.asPaths : DeclVal → List String
  | .scalar s => [s]
  | .ofList xs => xs
  | .ofTuple xs => xs

/-- The raw value of a schema/model declaration setting as read from the
crawler settings: unset, a single non-container value, a list, a tuple,
or a mapping from record-type name to leaf declaration value. -/
inductive RawSetting where
  | unset
  | scalar (s : String)
  | ofList (xs : List String)
  | ofTuple (xs : List String)
  | ofDict (entries : List (String × DeclVal))

/-- Python truthiness of a setting value (`if not res: continue`). -/
def RawSetting.isFalsy : RawSetting → Bool
  | .unset => true
  | .scalar s => s == ""
  | .ofList xs => xs.isEmpty
  | .ofTuple xs => xs.isEmpty
  | .ofDict es => es.isEmpty

/-- The inner `set_validators(loader, schema)` of `from_crawler`: a
list/tuple declaration is recast as `{UniversalItem: schema}`; then each
`(obj, paths)` entry has its paths normalized to a list, loaded, and
registered additively under `obj.__name__`.  The wildcard `.unset` /
`.scalar` arm is unreachable: the caller has already skipped falsy
settings and rejected non-container ones. -/
def set_validators (loader : String → Validator) (schema : RawSetting)
    (validators : Registry) : Registry :=
  let entries : List (String × DeclVal) :=
    match schema with
    | .ofList xs => [(universalKey, .ofList xs)]
    | .ofTuple xs => [(universalKey, .ofTuple xs)]
    | .ofDict es => es
    | _ => []
  entries.foldl
    (fun acc e => registryAdd e.1 ((e.2.asPaths).map loader) acc) validators

/-- One iteration of the settings loop in `from_crawler`: skip a falsy
setting, reject a container type outside `(list, tuple, dict)` with
`NotConfigured`, otherwise register the declared validators. -/
def applySetting (loader : String → Validator) (res : RawSetting)
    (validators : Registry) : Except String Registry :=
  if res.isFalsy then Except.ok validators
  else
    match res with
    | .ofList xs => Except.ok (set_validators loader (.ofList xs) validators)
    | .ofTuple xs => Except.ok (set_validators loader (.ofTuple xs) validators)
    | .ofDict es => Except.ok (set_validators loader (.ofDict es) validators)
    | _ => Except.error "NotConfigured: dict or list/tuple is required"

/-- The crawler settings consumed by `from_crawler`. -/
structure CrawlerSettings where
  validation_schemas : RawSetting
  validation_models : RawSetting
  drop_items_with_errors : Bool
  add_errors_to_items : Bool
  errors_field : Option String

/-- Python `x or default` for an optional string setting: an unset or
empty value falls back to the default. -/
def orDefaultStr (s : Option String) (d : String) : String :=
  match s with
  | none => d
  | some v => if v == "" then d else v

/-- `ItemValidationPipeline.__init__`: stores the switches, applying the
defaults via `or`.  (The per-validator `stats.add_validator` registration
calls are construction-time bookkeeping on the external sink and are not
recorded here.) -/
def initPipeline (validators : Registry) (drop addErr : Bool)
    (ef : Option String) : Pipeline :=
  { validators := validators
    drop_items_with_errors := drop
    add_errors_to_items := addErr || DEFAULT_ADD_ERRORS_TO_ITEM
    errors_field := orDefaultStr ef DEFAULT_ERRORS_FIELD }

/-- `ItemValidationPipeline.from_crawler`: starting from an empty
registry, apply the schemas setting with the jsonschema loader, then the
models setting with the schematics loader, and build the pipeline.  A
`NotConfigured` error from either setting aborts construction. -/
def from_crawler (jsonLoader modelLoader : String → Validator)
    (s : CrawlerSettings) : Except String Pipeline :=
  match applySetting jsonLoader s.validation_schemas [] with
  | Except.error msg => Except.error msg
  | Except.ok r1 =>
    match applySetting modelLoader s.validation_models r1 with
    | Except.error msg => Except.error msg
    | Except.ok r2 =>
      Except.ok (initPipeline r2 s.drop_items_with_errors
        s.add_errors_to_items s.errors_field)

/-- `find_validators`: the type-specific list (keyed by the item class
name) followed by the universal list, each defaulting to empty. -/
def find_validators (p : Pipeline) (item : Item) : List Validator :=
  (registryGet item.typeName p.validators).getD [] ++
    (registryGet universalKey p.validators).getD []

/-- `_convert_item_to_dict`: the item serialized through the JSON-lines
exporter and parsed back, i.e. its plain field mapping. -/
def convert_item_to_dict (item : Item) : List (String × ItemValue) :=
  item.values

/-- First lookup in an item value mapping. -/
def getValue (key : String) : List (String × ItemValue) → Option ItemValue
  | [] => none
  | (k, v) :: rest => if k = key then some v else getValue key rest

/-- Python `key in mapping` for an item value mapping. -/
def hasKey (key : String) (vals : List (String × ItemValue)) : Bool :=
  vals.any (fun kv => kv.1 == key)

/-- Apply a function to the value stored under `key`, if present. -/
def updateValue (key : String) (g : ItemValue → ItemValue) :
    List (String × ItemValue) → List (String × ItemValue)
  | [] => []
  | (k, v) :: rest =>
    if k = key then (k, g v) :: rest else (k, v) :: updateValue key g rest

/-- `item[errors_field][field_name] += messages` on the aggregated-errors
mapping: append `msgs` to the entry for `field`, creating it (from the
defaultdict default `[]`) at the end if absent. -/
def errAppend (field : String) (msgs : List String) : Errors → Errors
  | [] => [(field, msgs)]
  | (k, ms) :: rest =>
    if k = field then (k, ms ++ msgs) :: rest
    else (k, ms) :: errAppend field msgs rest

/-- The `for field_name, messages in errors.items()` loop of
`_add_errors_to_item`, folded over an existing aggregated-errors
mapping. -/
def mergeErrors (newErrors : Errors) (e : Errors) : Errors :=
  newErrors.foldl (fun acc fm => errAppend fm.1 fm.2 acc) e

/-- `_add_errors_to_item(item, errors)`: declare the errors field on the
item class if missing, initialize `item[errors_field]` to an empty
defaultdict if missing, then append every field's messages.  A non-errors
value already stored under the errors field is left unchanged (in Python
that situation would raise inside the `+=`; it is unreachable from the
pipeline, which only ever stores an errors mapping there). -/
def add_errors_to_item (errors_field : String) (item : Item)
    (errors : Errors) : Item :=
  let classFields :=
    if errors_field ∈ item.classFields then item.classFields
    else item.classFields ++ [errors_field]
  let values0 :=
    if hasKey errors_field item.values then item.values
    else item.values ++ [(errors_field, .errorsVal [])]
  let values := updateValue errors_field
    (fun v => match v with
      | .errorsVal e => .errorsVal (mergeErrors errors e)
      | v => v) values0
  { item with classFields := classFields, values := values }

/-- Concatenation of a list of event lists. -/
def concatAll : List (List StatsEvent) → List StatsEvent
  | [] => []
  | xs :: rest => xs ++ concatAll rest

/-- The per-field stats increments for one failing validator: one
`add_field_error(field_name, message)` per field per message, in the
order of the errors mapping. -/
def failureEvents (errors : Errors) : List StatsEvent :=
  concatAll (errors.map (fun fm =>
    fm.2.map (fun m => StatsEvent.addFieldError fm.1 m)))

/-- The outcome of one `process_item` dispatch: the returned item (or the
`DropItem` rejection), the increment events sent to the stats sink, and —
as instrumentation — the data mapping passed to each `validate` call that
was actually made, in call order. -/
structure DispatchResult where
  result : Except String Item
  events : List StatsEvent
  calls : List (List (String × ItemValue))

/-- The `for validator in self.find_validators(item)` loop of
`process_item`.  Each validator is invoked on the fixed `data` mapping;
on failure the field-error and item-with-errors increments are reported,
the item is annotated when `add_errors_to_items` is set, and when
`drop_items_with_errors` is set one dropped-item increment is reported
and the dispatch fails with `DropItem("Validation failed!")`, skipping
the remaining validators. -/
def runValidators (p : Pipeline) (data : List (String × ItemValue)) :
    List Validator → Item → DispatchResult
  | [], item => ⟨Except.ok item, [], []⟩
  | v :: rest, item =>
    let r := v.validate data
    if r.1 then
      let d := runValidators p data rest item
      ⟨d.result, d.events, data :: d.calls⟩
    else
      let evs := failureEvents r.2 ++ [StatsEvent.addItemWithErrors]
      let item1 :=
        if p.add_errors_to_items then
          add_errors_to_item p.errors_field item r.2
        else item
      if p.drop_items_with_errors then
        ⟨Except.error "Validation failed!",
          evs ++ [StatsEvent.addDroppedItem], [data]⟩
      else
        let d := runValidators p data rest item1
        ⟨d.result, evs ++ d.events, data :: d.calls⟩

/-- `process_item(item, _)`: convert the item once, report the item-seen
and field-count increments, then run the applicable validators. -/
def process_item (p : Pipeline) (item : Item) : DispatchResult :=
  let data := convert_item_to_dict item
  let d := runValidators p data (find_validators p item) item
  { d with events :=
      StatsEvent.addItem :: StatsEvent.addFields data.length :: d.events }

/-- Recognizer for the item-with-errors increment. -/
def isItemWithErrors : StatsEvent → Bool
  | .addItemWithErrors => true
  | _ => false

/-- Number of `add_item_with_errors` increments in an event trace. -/
def countItemWithErrors (evs : List StatsEvent) : Nat :=
  (evs.filter isItemWithErrors).length

/-- A trivial always-passing validator, used in concrete examples. -/
def mkValidator (s : String) : Validator := ⟨s, fun _ => (true, [])⟩

/-! Registry lemmas. -/

/-- Assigning a key makes it readable: dict set/get roundtrip. -/
theorem registryGet_registrySet_self (key : String) (v : List Validator)
    (r : Registry) : registryGet key (registrySet key v r) = some v := by
  induction r with
  | nil => simp [registrySet, registryGet]
  | cons kv rest ih =>
    obtain ⟨k, w⟩ := kv
    by_cases h : k = key
    · simp [registrySet, registryGet, h]
    · simp [registrySet, registryGet, h, ih]

/-- The additive registration step appends to the existing list. -/
theorem registryGet_registryAdd_self (key : String)
    (objects : List Validator) (r : Registry) :
    registryGet key (registryAdd key objects r) =
      some ((registryGet key r).getD [] ++ objects) := by
  simp [registryAdd, registryGet_registrySet_self]

/-- Evaluation of `applySetting` on a one-entry mapping declaration. -/
theorem applySetting_ofDict_single (loader : String → Validator)
    (key : String) (d : DeclVal) (r : Registry) :
    applySetting loader (.ofDict [(key, d)]) r =
      Except.ok (registryAdd key (d.asPaths.map loader) r) := by
  simp [applySetting, RawSetting.isFalsy, set_validators]

/-- C7: registering validators for a type key that already has entries —
here, the same key declared in the schemas source and then in the models
source — appends the new validators after the existing list for that key,
never replacing it: the resulting list is the source-1 validators followed
by the source-2 validators. -/
theorem additive_registration (jsonLoader modelLoader : String → Validator)
    (key : String) (d1 d2 : DeclVal) (b1 b2 : Bool) (ef : Option String) :
    ∃ p, from_crawler jsonLoader modelLoader
        ⟨.ofDict [(key, d1)], .ofDict [(key, d2)], b1, b2, ef⟩ =
        Except.ok p ∧
      registryGet key p.validators =
        some (d1.asPaths.map jsonLoader ++ d2.asPaths.map modelLoader) := by
  refine ⟨initPipeline
      (registryAdd key (d2.asPaths.map modelLoader)
        (registryAdd key (d1.asPaths.map jsonLoader) [])) b1 b2 ef, ?_, ?_⟩
  · simp [from_crawler, applySetting_ofDict_single]
  · simp [initPipeline, registryGet_registryAdd_self, registryGet]

/-- C8 counterexample: a schemas setting given as a single non-container
value is not accepted at construction — `from_crawler` rejects it with
`NotConfigured` before any registration happens. -/
theorem scalar_setting_rejected :
    from_crawler mkValidator mkValidator
      ⟨RawSetting.scalar "schemas.MySchema", RawSetting.unset,
        false, false, none⟩ =
      Except.error "NotConfigured: dict or list/tuple is required" := rfl

/-- C8 amended: a single non-container value is accepted only as the
leaf value for a type key inside a mapping declaration; there it is
normalized by wrapping into a single-element list and registered under
that type key (a top-level non-container setting fails construction). -/
theorem scalar_decl_value_wrapped (jsonLoader modelLoader : String → Validator)
    (T s : String) (b1 b2 : Bool) (ef : Option String) :
    ∃ p, from_crawler jsonLoader modelLoader
        ⟨.ofDict [(T, DeclVal.scalar s)], .unset, b1, b2, ef⟩ =
        Except.ok p ∧
      registryGet T p.validators = some [jsonLoader s] := by
  refine ⟨initPipeline
      (registryAdd T ((DeclVal.scalar s).asPaths.map jsonLoader) [])
      b1 b2 ef, ?_, ?_⟩
  · simp [from_crawler, applySetting, RawSetting.isFalsy, set_validators]
  · simp [initPipeline, registryGet_registryAdd_self, registryGet,
      DeclVal.asPaths]

/-- C9: a non-empty declaration setting whose container type is not
list, tuple, or mapping makes construction fail with the configuration
error: `from_crawler` returns the error and no pipeline (hence no
partially built registry) is ever returned. -/
theorem invalid_container_rejected (jsonLoader modelLoader : String → Validator)
    (s : CrawlerSettings) (v : String) (hv : v ≠ "")
    (h : s.validation_schemas = RawSetting.scalar v ∨
         s.validation_models = RawSetting.scalar v) :
    ∃ msg, from_crawler jsonLoader modelLoader s = Except.error msg := by
  have hfal : RawSetting.isFalsy (RawSetting.scalar v) = false := by
    simp [RawSetting.isFalsy, hv]
  have herr : ∀ (loader : String → Validator) (r : Registry),
      applySetting loader (RawSetting.scalar v) r =
        Except.error "NotConfigured: dict or list/tuple is required" := by
    intro loader r
    simp [applySetting, hfal]
  rcases h with h1 | h2
  · exact ⟨"NotConfigured: dict or list/tuple is required",
      by simp [from_crawler, h1, herr]⟩
  · cases happ : applySetting jsonLoader s.validation_schemas [] with
    | error m => exact ⟨m, by simp [from_crawler, happ]⟩
    | ok r1 => exact ⟨"NotConfigured: dict or list/tuple is required",
        by simp [from_crawler, happ, h2, herr]⟩

/-- Witness for C9 at a concrete input: a bare string models setting. -/
theorem invalid_container_rejected_witness :
    ∃ msg, from_crawler mkValidator mkValidator
      ⟨RawSetting.unset, RawSetting.scalar "x", false, false, none⟩ =
      Except.error msg :=
  invalid_container_rejected mkValidator mkValidator
    ⟨RawSetting.unset, RawSetting.scalar "x", false, false, none⟩ "x"
    (by decide) (Or.inr rfl)

/-! Concrete validators, items and pipelines used by the witnesses. -/

/-- A validator failing with one message on field `a`. -/
def vFail1 : Validator := ⟨"v1", fun _ => (false, [("a", ["bad1"])])⟩

/-- A validator failing on fields `a` and `b`. -/
def vFail2 : Validator :=
  ⟨"v2", fun _ => (false, [("a", ["bad2"]), ("b", ["bad3"])])⟩

/-- An always-passing validator instance. -/
def vOk : Validator := ⟨"ok", fun _ => (true, [])⟩

/-- A sample record of type `TestItem` with one field. -/
def itemA : Item :=
  ⟨"TestItem", ["title"], [("title", ItemValue.plain "t")]⟩

/-- Pipeline with a type-specific and a universal validator. -/
def pBoth : Pipeline :=
  ⟨[("TestItem", [vOk]), (universalKey, [vFail1])], false, false,
    DEFAULT_ERRORS_FIELD⟩

/-- Pipeline with the drop policy enabled and two validators where the
first fails. -/
def pDrop : Pipeline :=
  ⟨[("TestItem", [vFail1, vOk])], true, false, DEFAULT_ERRORS_FIELD⟩

/-- Pipeline with an empty registry. -/
def pEmpty : Pipeline := ⟨[], false, false, DEFAULT_ERRORS_FIELD⟩

/-- Pipeline with two failing validators and both switches disabled. -/
def pTwoFail : Pipeline :=
  ⟨[("TestItem", [vFail1, vFail2])], false, false, DEFAULT_ERRORS_FIELD⟩

/-- Pipeline with one failing validator and both switches disabled. -/
def pObserve : Pipeline :=
  ⟨[("TestItem", [vFail1])], false, false, DEFAULT_ERRORS_FIELD⟩

/-! Dispatch-loop theorems. -/

/-- C2: the registry lookup used by dispatch returns the full
type-specific list strictly before the full universal list, each list as
stored in registration order, and an unregistered group contributes the
empty list (via the `.getD []` default). -/
theorem find_validators_spec (p : Pipeline) (item : Item)
    (ts us : List Validator)
    (hts : (registryGet item.typeName p.validators).getD [] = ts)
    (hus : (registryGet universalKey p.validators).getD [] = us) :
    find_validators p item = ts ++ us := by
  simp [find_validators, hts, hus]

/-- Witness for C2: a registry with both groups present. -/
theorem find_validators_spec_witness :
    find_validators pBoth itemA = [vOk] ++ [vFail1] :=
  find_validators_spec pBoth itemA [vOk] [vFail1] rfl rfl

/-- C1: with the drop policy enabled and at least two applicable
validators where the first fails, the dispatch fails with the
`DropItem` rejection, only the first validator is ever invoked, and the
event trace ends with exactly one dropped-item increment, reported after
the failure statistics and before the rejection is returned. -/
theorem drop_short_circuit (p : Pipeline) (item : Item)
    (v1 v2 : Validator) (rest : List Validator) (e1 : Errors)
    (hdrop : p.drop_items_with_errors = true)
    (hfind : find_validators p item = v1 :: v2 :: rest)
    (hv1 : v1.validate (convert_item_to_dict item) = (false, e1)) :
    (process_item p item).result = Except.error "Validation failed!" ∧
    (process_item p item).calls = [convert_item_to_dict item] ∧
    (process_item p item).events =
      StatsEvent.addItem ::
        StatsEvent.addFields (convert_item_to_dict item).length ::
        (failureEvents e1 ++
          [StatsEvent.addItemWithErrors, StatsEvent.addDroppedItem]) := by
  simp [process_item, hfind, runValidators, hv1, hdrop]

/-- Witness for C1: two registered validators, the first failing. -/
theorem drop_short_circuit_witness :
    (process_item pDrop itemA).result = Except.error "Validation failed!" ∧
    (process_item pDrop itemA).calls = [convert_item_to_dict itemA] ∧
    (process_item pDrop itemA).events =
      StatsEvent.addItem ::
        StatsEvent.addFields (convert_item_to_dict itemA).length ::
        (failureEvents [("a", ["bad1"])] ++
          [StatsEvent.addItemWithErrors, StatsEvent.addDroppedItem]) :=
  drop_short_circuit pDrop itemA vFail1 vOk [] [("a", ["bad1"])]
    rfl rfl rfl

/-- Every `validate` call made by the loop receives the fixed `data`
mapping computed before the loop started. -/
theorem mem_calls_runValidators (p : Pipeline)
    (data : List (String × ItemValue)) :
    ∀ (vs : List Validator) (item : Item)
      (d : List (String × ItemValue)),
      d ∈ (runValidators p data vs item).calls → d = data := by
  intro vs
  induction vs with
  | nil => intro item d hd; simp [runValidators] at hd
  | cons v rest ih =>
    intro item d hd
    simp only [runValidators] at hd
    split at hd
    · simp only [List.mem_cons] at hd
      rcases hd with h | h
      · exact h
      · exact ih item d h
    · split at hd
      · simp only [List.mem_singleton] at hd
        exact hd
      · simp only [List.mem_cons] at hd
        rcases hd with h | h
        · exact h
        · exact ih _ d h

/-- C10: the field mapping is computed once, before any validator runs,
and that same mapping is what every invoked validator receives — in
particular annotation of the record by an earlier validator never changes
the input seen by later validators of the same dispatch. -/
theorem validator_input_fixed (p : Pipeline) (item : Item)
    (d : List (String × ItemValue))
    (hd : d ∈ (process_item p item).calls) :
    d = convert_item_to_dict item := by
  apply mem_calls_runValidators p (convert_item_to_dict item)
    (find_validators p item) item d
  simpa [process_item] using hd

/-- Witness for C10 at a concrete dispatch. -/
theorem validator_input_fixed_witness :
    [("title", ItemValue.plain "t")] = convert_item_to_dict itemA :=
  validator_input_fixed pDrop itemA [("title", ItemValue.plain "t")]
    (by decide)

/-- C6: a record with no type-specific and no universal validators is
returned unchanged with exactly the item-seen and field-count increments
(the latter of the converted mapping's field count) and no other event. -/
theorem unregistered_passthrough (p : Pipeline) (item : Item)
    (h1 : registryGet item.typeName p.validators = none)
    (h2 : registryGet universalKey p.validators = none) :
    process_item p item =
      ⟨Except.ok item,
        [StatsEvent.addItem,
          StatsEvent.addFields (convert_item_to_dict item).length], []⟩ := by
  simp [process_item, find_validators, h1, h2, runValidators]

/-- Witness for C6: the empty registry. -/
theorem unregistered_passthrough_witness :
    process_item pEmpty itemA =
      ⟨Except.ok itemA,
        [StatsEvent.addItem,
          StatsEvent.addFields (convert_item_to_dict itemA).length], []⟩ :=
  unregistered_passthrough pEmpty itemA rfl rfl

/-- Field-error increments are never item-with-errors increments. -/
theorem filter_isIWE_map (f : String) (ms : List String) :
    (ms.map (fun m => StatsEvent.addFieldError f m)).filter
      isItemWithErrors = [] := by
  induction ms with
  | nil => rfl
  | cons m ms ih => simp [List.filter_cons, isItemWithErrors, ih]

/-- The failure events of one validator hold no item-with-errors
increment. -/
theorem filter_isIWE_failureEvents (e : Errors) :
    (failureEvents e).filter isItemWithErrors = [] := by
  induction e with
  | nil => rfl
  | cons fm rest ih =>
    simp only [failureEvents, List.map_cons, concatAll, List.filter_append]
    rw [filter_isIWE_map]
    simp only [failureEvents] at ih
    simpa using ih

/-- With the drop policy disabled, the loop reports one item-with-errors
increment per failing validator. -/
theorem countIWE_runValidators (p : Pipeline)
    (data : List (String × ItemValue))
    (hdrop : p.drop_items_with_errors = false) :
    ∀ (vs : List Validator) (item : Item),
      countItemWithErrors (runValidators p data vs item).events =
        (vs.filter (fun v => !(v.validate data).1)).length := by
  intro vs
  induction vs with
  | nil => intro item; rfl
  | cons v rest ih =>
    intro item
    simp only [countItemWithErrors] at ih
    simp only [runValidators, hdrop]
    cases hok : (v.validate data).1
    · simp [countItemWithErrors, List.filter_append, hok,
        List.filter_cons, filter_isIWE_failureEvents, isItemWithErrors,
        ih]
    · simp [countItemWithErrors, hok, List.filter_cons, ih]

/-- C3: the item-with-errors counter is incremented once per failing
validator, not once per record — with drop disabled, the number of such
increments equals the number of applicable validators whose outcome is
not ok. -/
theorem item_with_errors_per_failing_validator (p : Pipeline)
    (item : Item) (hdrop : p.drop_items_with_errors = false) :
    countItemWithErrors (process_item p item).events =
      ((find_validators p item).filter
        (fun v => !(v.validate (convert_item_to_dict item)).1)).length := by
  have h := countIWE_runValidators p (convert_item_to_dict item) hdrop
    (find_validators p item) item
  simpa [process_item, countItemWithErrors, List.filter_cons,
    isItemWithErrors] using h

/-- Witness for C3: two failing validators yield exactly two
item-with-errors increments. -/
theorem item_with_errors_witness :
    countItemWithErrors (process_item pTwoFail itemA).events = 2 :=
  (item_with_errors_per_failing_validator pTwoFail itemA rfl).trans rfl

/-- Observation-mode evaluation of the loop: with both switches
disabled, the item passes through untouched and the events are exactly
the per-validator failure statistics. -/
theorem runValidators_observation (p : Pipeline)
    (data : List (String × ItemValue))
    (hadd : p.add_errors_to_items = false)
    (hdrop : p.drop_items_with_errors = false) :
    ∀ (vs : List Validator) (item : Item),
      runValidators p data vs item =
        ⟨Except.ok item,
          concatAll (vs.map (fun v =>
            if (v.validate data).1 then []
            else failureEvents (v.validate data).2 ++
              [StatsEvent.addItemWithErrors])),
          vs.map (fun _ => data)⟩ := by
  intro vs
  induction vs with
  | nil => intro item; rfl
  | cons v rest ih =>
    intro item
    simp only [runValidators, hadd, hdrop]
    cases hok : (v.validate data).1
    · simp [hok, concatAll, ih]
    · simp [hok, concatAll, ih]

/-- C5: with both the annotate and drop switches disabled, a failing
validator still reports its field-error increments (one per field per
message, in order) and its item-with-errors increment, yet the returned
record is the input record and no rejection occurs. -/
theorem observation_mode (p : Pipeline) (item : Item)
    (hadd : p.add_errors_to_items = false)
    (hdrop : p.drop_items_with_errors = false) :
    (process_item p item).result = Except.ok item ∧
    (process_item p item).events =
      StatsEvent.addItem ::
        StatsEvent.addFields (convert_item_to_dict item).length ::
        concatAll ((find_validators p item).map (fun v =>
          if (v.validate (convert_item_to_dict item)).1 then []
          else failureEvents (v.validate (convert_item_to_dict item)).2 ++
            [StatsEvent.addItemWithErrors])) := by
  simp [process_item, runValidators_observation p _ hadd hdrop]

/-- Witness for C5: one failing validator, both switches disabled. -/
theorem observation_mode_witness :
    (process_item pObserve itemA).result = Except.ok itemA ∧
    (process_item pObserve itemA).events =
      StatsEvent.addItem ::
        StatsEvent.addFields (convert_item_to_dict itemA).length ::
        concatAll ((find_validators pObserve itemA).map (fun v =>
          if (v.validate (convert_item_to_dict itemA)).1 then []
          else failureEvents
              (v.validate (convert_item_to_dict itemA)).2 ++
            [StatsEvent.addItemWithErrors])) :=
  observation_mode pObserve itemA rfl rfl

/-! Error-annotation lemmas. -/

/-- Lookup after an in-place update of the same key. -/
theorem getValue_updateValue (key : String) (g : ItemValue → ItemValue)
    (vals : List (String × ItemValue)) :
    getValue key (updateValue key g vals) = (getValue key vals).map g := by
  induction vals with
  | nil => rfl
  | cons kv rest ih =>
    obtain ⟨k, v⟩ := kv
    by_cases h : k = key
    · simp [updateValue, getValue, h]
    · simp [updateValue, getValue, h, ih]

/-- Python membership agrees with lookup success. -/
theorem hasKey_eq_isSome (key : String)
    (vals : List (String × ItemValue)) :
    hasKey key vals = (getValue key vals).isSome := by
  induction vals with
  | nil => rfl
  | cons kv rest ih =>
    obtain ⟨k, v⟩ := kv
    simp only [hasKey, List.any_cons] at ih ⊢
    by_cases h : k = key
    · simp [getValue, h]
    · have hb : (k == key) = false := by
        cases hbe : k == key
        · rfl
        · exact absurd (eq_of_beq hbe) h
      simp [getValue, h, hb, ih]

/-- Lookup skips a block of entries that does not hold the key. -/
theorem getValue_append_of_none (key : String)
    (vals l : List (String × ItemValue))
    (h : getValue key vals = none) :
    getValue key (vals ++ l) = getValue key l := by
  induction vals with
  | nil => rfl
  | cons kv rest ih =>
    obtain ⟨k, v⟩ := kv
    by_cases hk : k = key
    · simp [getValue, hk] at h
    · simp only [getValue, hk, if_false, List.cons_append] at h ⊢
      simp [hk]
      exact ih h

/-- Annotating a record that has no errors field yet creates the field
and stores exactly the merged-in errors. -/
theorem getValue_add_errors_fresh (ef : String) (item : Item) (E : Errors)
    (h : hasKey ef item.values = false) :
    getValue ef (add_errors_to_item ef item E).values =
      some (ItemValue.errorsVal (mergeErrors E [])) := by
  have hnone : getValue ef item.values = none := by
    cases hget : getValue ef item.values with
    | none => rfl
    | some v => rw [hasKey_eq_isSome, hget] at h; simp at h
  simp only [add_errors_to_item, h]
  rw [if_neg (by simp)]
  rw [getValue_updateValue, getValue_append_of_none ef _ _ hnone]
  simp [getValue]

/-- Annotating a record that already carries an aggregated-errors
mapping appends the new errors to it, never overwriting it. -/
theorem getValue_add_errors_existing (ef : String) (item : Item)
    (E e : Errors)
    (h : getValue ef item.values = some (ItemValue.errorsVal e)) :
    getValue ef (add_errors_to_item ef item E).values =
      some (ItemValue.errorsVal (mergeErrors E e)) := by
  have hk : hasKey ef item.values = true := by
    rw [hasKey_eq_isSome, h]; rfl
  simp only [add_errors_to_item, hk]
  rw [if_pos (by simp)]
  rw [getValue_updateValue, h]
  rfl

/-- C4: with annotation enabled and drop disabled, two validators
failing in order with errors on a shared field accumulate onto the
record's errors field in validator order with nothing overwritten. -/
theorem error_aggregation (p : Pipeline) (item : Item) (v1 v2 : Validator)
    (hadd : p.add_errors_to_items = true)
    (hdrop : p.drop_items_with_errors = false)
    (hfind : find_validators p item = [v1, v2])
    (hv1 : v1.validate (convert_item_to_dict item) =
      (false, [("a", ["bad1"])]))
    (hv2 : v2.validate (convert_item_to_dict item) =
      (false, [("a", ["bad2"]), ("b", ["bad3"])]))
    (hef : hasKey p.errors_field item.values = false) :
    ∃ item2, (process_item p item).result = Except.ok item2 ∧
      getValue p.errors_field item2.values =
        some (ItemValue.errorsVal
          [("a", ["bad1", "bad2"]), ("b", ["bad3"])]) := by
  refine ⟨add_errors_to_item p.errors_field
      (add_errors_to_item p.errors_field item [("a", ["bad1"])])
      [("a", ["bad2"]), ("b", ["bad3"])], ?_, ?_⟩
  · simp [process_item, hfind, runValidators, hv1, hv2, hadd, hdrop]
  · have h1 := getValue_add_errors_fresh p.errors_field item
      [("a", ["bad1"])] hef
    have h2 := getValue_add_errors_existing p.errors_field _
      [("a", ["bad2"]), ("b", ["bad3"])]
      (mergeErrors [("a", ["bad1"])] []) h1
    rw [h2]
    rfl

/-- Pipeline annotating but not dropping, with two failing validators. -/
def pAnnotate : Pipeline :=
  ⟨[("TestItem", [vFail1, vFail2])], false, true, DEFAULT_ERRORS_FIELD⟩

/-- Witness for C4 at a concrete record and validator pair. -/
theorem error_aggregation_witness :
    ∃ item2, (process_item pAnnotate itemA).result = Except.ok item2 ∧
      getValue DEFAULT_ERRORS_FIELD item2.values =
        some (ItemValue.errorsVal
          [("a", ["bad1", "bad2"]), ("b", ["bad3"])]) :=
  error_aggregation pAnnotate itemA vFail1 vFail2 rfl rfl rfl rfl rfl rfl

end Spidermon
